import Mathlib

set_option maxRecDepth 40000

/-!
A verification development for the `adpi` transparent TCP proxy
(`src/main.rs`).  The program relays redirected TCP connections and
fragments the outgoing TLS ClientHello record at byte offsets chosen
relative to the SNI hostname field.

The development shallowly embeds the parts of the program the claims
are about:

* the TLS ClientHello parsing done through the `tls_parser` crate
  (`parse_tls_plaintext`, `parse_tls_client_hello_extensions` and the
  SNI extension content parser), modelled as index-tracking functions
  over a `List Nat` of bytes, so that the hostname start offset that the
  Rust code obtains by pointer subtraction
  (`sni_data.as_ptr() as usize - buf.as_ptr() as usize`) is the tracked
  absolute index of the hostname bytes in the buffer;
* the split-plan computation of `client_to_server` (lines 162-198 of
  `src/main.rs`);
* the segmented writer loop and its flush condition (lines 200-207);
* the error plumbing of `handle_client` (lines 219-259) and of the
  `client_to_server` read loop (lines 152-160, 210-211).

Bytes are `Nat` (a real read yields values below 256; none of the
parsing logic needs that bound).  Big-endian multi-byte fields are
`hi * 256 + lo` arithmetic, exactly as the crate reads them.
-/

/-! ### Byte-level access helpers -/

/-- Byte of `buf` at index `i` (0 when out of range; every use below is
guarded by an explicit length check mirroring the parser's own bounds
checks, so the default is never what decides a parse). -/
def byteAt (buf : List Nat) (i : Nat) : Nat := buf.getD i 0

/-- Big-endian 16-bit field at index `i`. -/
def be16 (buf : List Nat) (i : Nat) : Nat :=
  byteAt buf i * 256 + byteAt buf (i + 1)

/-- Big-endian 24-bit field at index `i`. -/
def be24 (buf : List Nat) (i : Nat) : Nat :=
  byteAt buf i * 65536 + byteAt buf (i + 1) * 256 + byteAt buf (i + 2)

/-! ### Model of the `tls_parser` crate

The repository calls into the `tls_parser` crate (not part of this
repository); the functions below model the crate's behaviour on the
wire formats that matter to the program: a TLS plaintext record, the
handshake messages inside it, the ClientHello body, the extension list
and the SNI extension content.  Handshake messages other than
ClientHello, record types other than Handshake, and extension contents
other than SNI never contribute split positions; the model parses them
by their length fields without validating their contents (the crate
validates some of them, which can only turn a successful parse into a
failed one, and a failed parse contributes no split positions either
way). -/

/-- One server-name entry of the SNI extension: its type byte
(0 = host name), the absolute index in the buffer where the name bytes
start, and the name length.  `start` is the model of the pointer
difference computed at line 178 of `src/main.rs`. -/
structure SniEntry where
  sniType : Nat
  start : Nat
  len : Nat
deriving DecidableEq, Repr

/-- A parsed TLS extension: the SNI extension with its entries, or any
other extension (type and content irrelevant to the program). -/
inductive TlsExt where
  | sni (entries : List SniEntry)
  | other
deriving DecidableEq, Repr

/-- A parsed handshake message: a ClientHello carrying the region
(start index, length) of its raw extensions block when one is present,
or any other message. -/
inductive TlsMsg where
  | clientHello (ext : Option (Nat × Nat))
  | other
deriving DecidableEq, Repr

/-- Server-name entries of an SNI extension list: each entry is a type
byte, a 16-bit name length and the name bytes; entries are read until
the region `[p, e)` is exhausted or an entry does not fit (the crate's
many0-with-complete loop keeps the entries parsed so far).  `fuel`
bounds the recursion; each entry consumes at least 3 bytes. -/
def parseSniEntriesAux (buf : List Nat) (e : Nat) : Nat → Nat → List SniEntry
  | 0, _ => []
  | fuel + 1, p =>
    if p + 3 ≤ e then
      let st := byteAt buf p
      let nl := be16 buf (p + 1)
      if p + 3 + nl ≤ e then
        ⟨st, p + 3, nl⟩ :: parseSniEntriesAux buf e fuel (p + 3 + nl)
      else []
    else []

/-- SNI extension content at region `(s, l)`: a 16-bit server-name-list
length followed by that many bytes of entries; fails when the list
length overruns the region. -/
def parseSniContent (buf : List Nat) (s l : Nat) : Option (List SniEntry) :=
  if 2 ≤ l then
    let ll := be16 buf s
    if 2 + ll ≤ l then
      some (parseSniEntriesAux buf (s + 2 + ll) (l + 1) (s + 2))
    else none
  else none

/-- Extension list at `[p, e)`: each extension is a 16-bit type, a
16-bit length and that many content bytes; type 0 content is parsed as
SNI (a malformed SNI content stops the loop, as the crate's
extension-content parser failure does); parsing stops at the first
extension that does not fit, keeping the extensions parsed so far.
Each extension consumes at least 4 bytes, bounding the recursion by
`fuel`. -/
def parseExtsAux (buf : List Nat) (e : Nat) : Nat → Nat → List TlsExt
  | 0, _ => []
  | fuel + 1, p =>
    if p + 4 ≤ e then
      let et := be16 buf p
      let el := be16 buf (p + 2)
      if p + 4 + el ≤ e then
        if et = 0 then
          match parseSniContent buf (p + 4) el with
          | some entries => TlsExt.sni entries :: parseExtsAux buf e fuel (p + 4 + el)
          | none => []
        else TlsExt.other :: parseExtsAux buf e fuel (p + 4 + el)
      else []
    else []

/-- Model of `parse_tls_client_hello_extensions` applied to the raw
extensions block at region `(s, l)` of the buffer. -/
def parseExtensions (buf : List Nat) (s l : Nat) : List TlsExt :=
  parseExtsAux buf (s + l) (l + 1) s

/-- ClientHello body at `[b, e)`: protocol version (2 bytes), random
(32 bytes), session id (1-byte length, at most 32, then that many
bytes), cipher suites (16-bit byte length, even, then that many bytes),
compression methods (1-byte length then that many bytes), then an
optional extensions block (16-bit length then that many bytes; absent
when the remainder is empty or does not form a complete block, as with
the crate's opt-complete combination).  Returns the extensions region
on success. -/
def parseClientHelloBody (buf : List Nat) (b e : Nat) : Option (Option (Nat × Nat)) :=
  if b + 34 ≤ e then
    let p1 := b + 34
    if p1 + 1 ≤ e then
      let sl := byteAt buf p1
      if sl ≤ 32 then
        let p2 := p1 + 1 + sl
        if p2 + 2 ≤ e then
          let cl := be16 buf p2
          if cl % 2 = 0 then
            let p3 := p2 + 2 + cl
            if p3 + 1 ≤ e then
              let al := byteAt buf p3
              let p4 := p3 + 1 + al
              if p4 ≤ e then
                if p4 = e then some none
                else
                  if p4 + 2 ≤ e then
                    if p4 + 2 + be16 buf p4 ≤ e then
                      some (some (p4 + 2, be16 buf p4))
                    else some none
                  else some none
              else none
            else none
          else none
        else none
      else none
    else none
  else none

/-- One handshake message at `[p, e)`: a type byte, a 24-bit length and
that many body bytes; a ClientHello body (type 1) is parsed, other
types are taken by length.  Returns the message and the index after
it. -/
def parseHsMsg (buf : List Nat) (p e : Nat) : Option (TlsMsg × Nat) :=
  if p + 4 ≤ e then
    let ht := byteAt buf p
    let hlen := be24 buf (p + 1)
    let q := p + 4 + hlen
    if q ≤ e then
      if ht = 1 then
        match parseClientHelloBody buf (p + 4) q with
        | some ext => some (TlsMsg.clientHello ext, q)
        | none => none
      else some (TlsMsg.other, q)
    else none
  else none

/-- Remaining handshake messages, parsed until the first failure (the
crate's many1-with-complete loop keeps the messages parsed so far).
Each message consumes at least 4 bytes, bounding the recursion by
`fuel`. -/
def parseHsMsgsAux (buf : List Nat) (e : Nat) : Nat → Nat → List TlsMsg
  | 0, _ => []
  | fuel + 1, p =>
    match parseHsMsg buf p e with
    | some (m, q) => m :: parseHsMsgsAux buf e fuel q
    | none => []

/-- Handshake record contents at `[p, e)`: at least one message must
parse. -/
def parseHandshakeMsgs (buf : List Nat) (p e : Nat) : Option (List TlsMsg) :=
  match parseHsMsg buf p e with
  | none => none
  | some (m, q) => some (m :: parseHsMsgsAux buf e (e + 1) q)

/-- Model of `parse_tls_plaintext` applied to the whole buffer, as at
line 162 of `src/main.rs`: a 5-byte record header (content type, 2-byte
version, 16-bit length capped at the crate's maximum record length of
16640), the record data must lie within the buffer, and the data is
parsed according to the content type.  Only type 22 (handshake) can
yield a ClientHello; types 20, 21, 23, 24 are parsed by their minimal
content requirement and yield no ClientHello; any other type fails. -/
def parseTlsPlaintext (buf : List Nat) : Option (List TlsMsg) :=
  if 5 ≤ buf.length then
    let t := byteAt buf 0
    let rlen := be16 buf 3
    if rlen ≤ 16640 then
      if 5 + rlen ≤ buf.length then
        if t = 22 then parseHandshakeMsgs buf 5 (5 + rlen)
        else if t = 20 then
          (if 1 ≤ rlen ∧ byteAt buf 5 = 1 then some [TlsMsg.other] else none)
        else if t = 21 then (if 2 ≤ rlen then some [TlsMsg.other] else none)
        else if t = 23 then some [TlsMsg.other]
        else if t = 24 then (if 3 ≤ rlen then some [TlsMsg.other] else none)
        else none
      else none
    else none
  else none

/-! ### The split planner (lines 162-198 of `src/main.rs`) -/

/-- The host-name entries the planner iterates over: for each parsed
message that is a ClientHello with an extensions block, for each parsed
extension that is SNI, the entries whose type is host name (0).  Empty
whenever the record parse fails.  This is the sequence of loop
iterations that reach line 170 of `src/main.rs`. -/
def hostEntries (buf : List Nat) : List SniEntry :=
  match parseTlsPlaintext buf with
  | none => []
  | some msgs =>
    msgs.flatMap fun m =>
      match m with
      | TlsMsg.clientHello (some (s, l)) =>
        (parseExtensions buf s l).flatMap fun x =>
          match x with
          | TlsExt.sni entries => entries.filter fun en => en.sniType = 0
          | TlsExt.other => []
      | _ => []

/-- The SNI-relative split offset for a host-name entry: one past the
start of the hostname when it has at least 2 bytes, else its start
(lines 180-184 of `src/main.rs`). -/
def sniSplitOffset (en : SniEntry) : Nat :=
  if 2 ≤ en.len then en.start + 1 else en.start

/-- The positions pushed into `split_positions` before the terminal
offset: for every host-name entry, the configured explicit positions
that are strictly below `rb` (lines 171-175), then, when `sh` is set,
the SNI-relative offset (lines 177-185).  Note the explicit positions
are pushed inside the host-name loop: with no host-name entry nothing
is pushed. -/
def rawPositions (buf : List Nat) (rb : Nat) (ps : List Nat) (sh : Bool) : List Nat :=
  (hostEntries buf).flatMap fun en =>
    ps.filter (fun p => p < rb) ++ (if sh then [sniSplitOffset en] else [])

/-- Removal of consecutive duplicates, as `Vec::dedup` at line 198. -/
def dedupConsec : List Nat → List Nat
  | [] => []
  | [a] => [a]
  | a :: b :: rest =>
    if a = b then dedupConsec (b :: rest) else a :: dedupConsec (b :: rest)

/-- The split plan of one read: the pushed positions, then the terminal
offset `rb` (line 196), sorted ascending (line 197; `sort_unstable` on
naturals produces the unique sorted permutation, which insertion sort
also produces) and with consecutive duplicates removed (line 198). -/
def splitPlan (buf : List Nat) (rb : Nat) (ps : List Nat) (sh : Bool) : List Nat :=
  dedupConsec (List.insertionSort (· ≤ ·) (rawPositions buf rb ps sh ++ [rb]))

/-! ### Concrete buffers used by the witnesses and counterexamples -/

/-- A well-formed 300-byte TLS ClientHello record with a single SNI
host-name entry of length 10 starting at index 80 (record header at
0-4, handshake header at 5-8, body from 9: version, 32-byte random,
1-byte session id, 20 bytes of cipher suites, 1 compression method,
then a 229-byte extensions block holding the SNI extension and a
padding extension). -/
def clientHello300 : List Nat :=
  [22, 3, 1, 1, 39,
   1, 0, 1, 35,
   3, 3] ++ List.replicate 32 0 ++
  [1, 0,
   0, 20] ++ List.replicate 20 0 ++
  [1, 0,
   0, 229,
   0, 0, 0, 15,
   0, 13,
   0, 0, 10,
   97, 98, 99, 100, 101, 102, 103, 104, 105, 106,
   0, 21, 0, 206] ++ List.replicate 206 0

/-- A well-formed 52-byte TLS ClientHello record with no extensions at
all (hence no SNI extension and no host-name entry). -/
def chNoSni : List Nat :=
  [22, 3, 1, 0, 47,
   1, 0, 0, 43,
   3, 3] ++ List.replicate 32 0 ++
  [0,
   0, 4, 0, 0, 0, 0,
   1, 0]

/-- 300 bytes of plain (non-TLS) traffic: ASCII capital A throughout,
so TLS record parsing fails. -/
def plainHttp300 : List Nat := List.replicate 300 65

/-- The buffer contents after a full `clientHello300` read followed by
a 5-byte read of the same record header bytes: byte-for-byte equal to
`clientHello300` (the 5 fresh bytes coincide with its first 5 bytes and
the remaining 295 bytes are stale).  Written out to make the stale-data
scenario explicit. -/
def staleBuf : List Nat := clientHello300.take 5 ++ clientHello300.drop 5

/-- The same 5 fresh bytes over a buffer whose remaining 295 bytes are
zero instead of stale ClientHello bytes. -/
def zeroTailBuf : List Nat := clientHello300.take 5 ++ List.replicate 295 0

/-! ### The segmented writer (lines 200-207 of `src/main.rs`) -/

/-- The consecutive segments the writer emits for a plan: for offsets
`o1, o2, ...` the slices `[0,o1)`, `[o1,o2)`, ... of the buffer
(`&buf[start_byte..*split_at]` at line 202).  Slices are modelled with
drop and take; on the plans the program builds the bounds are ascending
and within the buffer, so the clamping of take and drop is never
exercised there. -/
def segmentsAux (buf : List Nat) : Nat → List Nat → List (List Nat)
  | _, [] => []
  | start, p :: rest => (buf.drop start).take (p - start) :: segmentsAux buf p rest

/-- Segments of a plan starting from offset 0. -/
def segments (buf : List Nat) (plan : List Nat) : List (List Nat) :=
  segmentsAux buf 0 plan

/-- All bytes the writer sends for one read, in order: the
concatenation of the segments. -/
def writtenBytes (buf : List Nat) (plan : List Nat) : List Nat :=
  (segments buf plan).flatten

/-- Whether the writer performs a flush-wait (a `really_flush` call,
which queries the socket's pending-unsent-bytes state and blocks until
it reaches zero) after writing the segment that ends at offset `p`:
the condition at line 203 of `src/main.rs` is
`split_positions.len() > 1 && *split_at != read_bytes`. -/
def flushAfter (rb : Nat) (plan : List Nat) (p : Nat) : Bool :=
  decide (1 < plan.length) && decide (p ≠ rb)

/-- For each offset of the plan in order, whether a flush-wait follows
the segment written for it. -/
def flushFlags (rb : Nat) (plan : List Nat) : List Bool :=
  plan.map (flushAfter rb plan)

/-! ### The outbound-connection setup (`handle_client`, lines 219-259)

`handle_client` is a straight line of fallible socket operations; the
model records the success of each operation and mirrors the error
plumbing: every call made with the `?` operator propagates its failure,
while the `connect` call at line 241 has its result discarded with
`.ok()`.  The returned `Bool` is true when the two relay tasks are
spawned (lines 250-256 are reached). -/

/-- Outcomes of the fallible operations `handle_client` performs, in
program order. -/
structure HcEnv where
  nodelayOk : Bool
  origDstOk : Bool
  sockOk : Bool
  nonblockOk : Bool
  cloexecOk : Bool
  reuseOk : Bool
  nodelay2Ok : Bool
  fwmark : Nat
  markOk : Bool
  connectOk : Bool
  fromStdOk : Bool
deriving DecidableEq, Repr

/-- Model of `handle_client`: each `?`-propagated failure aborts with
an error; the `connect` result (`env.connectOk`) is discarded exactly
as `dst_socket.connect(&original_dst.into()).ok()` does at line 241;
on reaching the end the relay tasks are spawned and `Ok` is
returned. -/
def handle_client (env : HcEnv) : Except Unit Bool :=
  if env.nodelayOk = false then Except.error () else
  if env.origDstOk = false then Except.error () else
  if env.sockOk = false then Except.error () else
  if env.nonblockOk = false then Except.error () else
  if env.cloexecOk = false then Except.error () else
  if env.reuseOk = false then Except.error () else
  if env.nodelay2Ok = false then Except.error () else
  if env.fwmark ≠ 0 ∧ env.markOk = false then Except.error () else
  if env.fromStdOk = false then Except.error () else
  Except.ok true

/-- The `HcEnv` in which every operation succeeds. -/
def hcAllOk : HcEnv :=
  ⟨true, true, true, true, true, true, true, 1280, true, true, true⟩

/-! ### The client-to-server relay loop (lines 149-212 of `src/main.rs`)

The loop reads, plans, writes and repeats until a read error or a
zero-length read, then shuts down the destination's write side and
returns `Ok`.  The model drives the loop from a list of per-iteration
outcomes: the result of the `read` call and whether the writes (and
flushes) of that iteration all succeed.  A write or flush failure
propagates through `?` and aborts the task without the shutdown at line
210; the shutdown itself is fallible (`writer.shutdown().await?`).
Writes are recorded as one event carrying the bytes of the read (the
segmentation of those bytes is covered by `splitPlan`, `segments` and
`flushFlags` above). -/

/-- Result of one `reader.read` call: an error, or `bytes` read (`[]`
is the zero-length clean EOF). -/
inductive ReadRes where
  | err
  | data (bytes : List Nat)
deriving DecidableEq, Repr

/-- Observable events of the client-to-server task. -/
inductive C2SEv where
  | wrote (bytes : List Nat)
  | shutdownDst
deriving DecidableEq, Repr

/-- Model of the `client_to_server` loop: consumes per-iteration
outcomes in order; a read error or a zero-length read breaks the loop
(lines 155-160), after which the destination write side is shut down
and the task returns (lines 210-211, `Ok` when the shutdown call
succeeds); a write failure aborts the task with an error and no
shutdown.  An exhausted outcome list is treated as the clean-EOF
break. -/
def c2s (sdOk : Bool) : List (ReadRes × Bool) → List C2SEv × Except Unit Unit
  | [] => ([C2SEv.shutdownDst], if sdOk then Except.ok () else Except.error ())
  | (r, wOk) :: rest =>
    match r with
    | ReadRes.err => ([C2SEv.shutdownDst], if sdOk then Except.ok () else Except.error ())
    | ReadRes.data [] => ([C2SEv.shutdownDst], if sdOk then Except.ok () else Except.error ())
    | ReadRes.data bs =>
      if wOk then
        let next := c2s sdOk rest
        (C2SEv.wrote bs :: next.1, next.2)
      else ([], Except.error ())

/-- Whether the buffer parses to a TLS record containing a ClientHello
handshake message: false both when the buffer is not a TLS record at
all (the parse fails) and when it parses as a record carrying no
ClientHello (an alert, change-cipher-spec, application-data or
heartbeat record, or a handshake record of other messages).  This is
the scope of the `if let` chain at lines 162-164 of `src/main.rs`
never reaching the push loop for lack of a ClientHello. -/
def hasClientHello (buf : List Nat) : Bool :=
  match parseTlsPlaintext buf with
  | none => false
  | some msgs =>
    msgs.any fun m =>
      match m with
      | TlsMsg.clientHello _ => true
      | TlsMsg.other => false

/-- A well-formed 7-byte TLS alert record (fatal handshake failure): a
valid TLS record, but not a ClientHello handshake message. -/
def alertRecord : List Nat := [21, 3, 3, 0, 2, 2, 40]

/-! ### Helper lemmas on the plan construction -/

/-- Membership is preserved by consecutive-duplicate removal. -/
theorem mem_dedupConsec (x : Nat) : ∀ (l : List Nat), x ∈ dedupConsec l ↔ x ∈ l := by
  intro l
  induction l with
  | nil => simp [dedupConsec]
  | cons a t ih =>
    cases t with
    | nil => simp [dedupConsec]
    | cons b r =>
      by_cases hab : a = b
      · subst hab
        rw [show dedupConsec (a :: a :: r) = dedupConsec (a :: r) from by
          simp [dedupConsec]]
        rw [ih]
        simp
      · rw [show dedupConsec (a :: b :: r) = a :: dedupConsec (b :: r) from by
          simp [dedupConsec, hab]]
        simp only [List.mem_cons]
        rw [ih]
        simp [List.mem_cons]

/-- An offset is in the split plan exactly when it is one of the pushed
positions or the terminal offset. -/
theorem mem_splitPlan (x : Nat) (buf : List Nat) (rb : Nat) (ps : List Nat) (sh : Bool) :
    x ∈ splitPlan buf rb ps sh ↔ x ∈ rawPositions buf rb ps sh ∨ x = rb := by
  unfold splitPlan
  rw [mem_dedupConsec, (List.perm_insertionSort _ _).mem_iff, List.mem_append]
  simp

/-- With no host-name entry (in particular whenever the record parse
fails) nothing is pushed and the plan is the terminal offset alone. -/
theorem splitPlan_no_hostname (buf : List Nat) (rb : Nat) (ps : List Nat) (sh : Bool)
    (h : hostEntries buf = []) : splitPlan buf rb ps sh = [rb] := by
  unfold splitPlan rawPositions
  rw [h]
  simp [List.insertionSort, dedupConsec]

/-- Without a ClientHello among the parsed messages the planner finds
no host-name entry: every non-ClientHello message contributes nothing
to `hostEntries`. -/
theorem hostEntries_nil_of_no_clientHello (buf : List Nat)
    (h : hasClientHello buf = false) : hostEntries buf = [] := by
  unfold hasClientHello at h
  unfold hostEntries
  cases hp : parseTlsPlaintext buf with
  | none => rfl
  | some msgs =>
    rw [hp] at h
    rw [List.flatMap_eq_nil_iff]
    intro m hm
    have hany := List.any_eq_false.mp h m hm
    cases m with
    | clientHello ext => simp at hany
    | other => rfl

/-! ### C1 -/

/-- C1 counterexample.  `chNoSni` parses as a TLS record containing a
ClientHello with no SNI extension (no extensions at all), yet with
explicit split position 5 and a 52-byte read the plan is `[52]`, not
the `[5, 52]` the claim requires: the explicit offsets are pushed only
inside the host-name loop (lines 170-175 of `src/main.rs`), so without
a host-name entry they are dropped. -/
theorem noSni_explicit_offsets_dropped_cex :
    parseTlsPlaintext chNoSni = some [TlsMsg.clientHello none] ∧
    hostEntries chNoSni = [] ∧
    splitPlan chNoSni 52 [5] false = [52] ∧
    ([52] : List Nat) ≠ [5, 52] := by
  refine ⟨by decide, by decide, by decide, by decide⟩

/-- C1 amended: a read with no SNI host-name entry (no SNI extension,
no host-name entry in it, or no parse at all) yields the plan
`[bytes_read]`; the configured explicit split offsets are applied only
when a host-name entry is found. -/
theorem noSni_plan_terminal_only (buf : List Nat) (rb : Nat) (ps : List Nat) (sh : Bool)
    (h : hostEntries buf = []) : splitPlan buf rb ps sh = [rb] :=
  splitPlan_no_hostname buf rb ps sh h

/-- C1 amended witness: the no-extension ClientHello with explicit
position 5 and a 52-byte read gets the single-segment plan. -/
theorem noSni_plan_terminal_only_witness :
    hostEntries chNoSni = [] ∧ splitPlan chNoSni 52 [5] false = [52] :=
  ⟨by decide, noSni_plan_terminal_only chNoSni 52 [5] false (by decide)⟩

/-! ### C2 -/

/-- C2: for every buffer on which TLS parsing fails to yield a
ClientHello, whether because the buffer is not a TLS record at all or
because it parses as a record that is not a ClientHello handshake
message, the split plan is exactly `[bytes_read]`: the whole read is
sent as one unsplit segment, and the failure never surfaces as an
error (the planner is total and the `if let` chain at lines 162-164 of
`src/main.rs` just skips the push loop). -/
theorem parse_failure_single_segment_plan (buf : List Nat) (rb : Nat) (ps : List Nat)
    (sh : Bool) (h : hasClientHello buf = false) : splitPlan buf rb ps sh = [rb] :=
  splitPlan_no_hostname buf rb ps sh (hostEntries_nil_of_no_clientHello buf h)

/-- C2 witness, one input for each side of the claim's scope: 300
bytes of plain HTTP-like traffic are not a TLS record and get the plan
`[300]`; `alertRecord` parses as a valid TLS record carrying no
ClientHello message and gets the plan `[7]`. -/
theorem parse_failure_single_segment_plan_witness :
    parseTlsPlaintext plainHttp300 = none ∧
    parseTlsPlaintext alertRecord = some [TlsMsg.other] ∧
    hasClientHello plainHttp300 = false ∧
    hasClientHello alertRecord = false ∧
    splitPlan plainHttp300 300 [] false = [300] ∧
    splitPlan alertRecord 7 [] false = [7] :=
  ⟨by decide, by decide, by decide, by decide,
   parse_failure_single_segment_plan plainHttp300 300 [] false (by decide),
   parse_failure_single_segment_plan alertRecord 7 [] false (by decide)⟩

/-! ### C3 -/

/-- C3 counterexample.  The claim quantifies over every read of
`bytes_read` bytes; for a 300-byte non-TLS read with explicit positions
`[5, 500]` the code yields `[300]`, not the claimed `[5, 300]`, because
explicit offsets are pushed only when an SNI host-name entry is found.
The `[5, 300]` outcome does hold for a 300-byte ClientHello read whose
SNI host name is present (second conjunct). -/
theorem explicit_positions_example_cex :
    splitPlan plainHttp300 300 [5, 500] false = [300] ∧
    splitPlan clientHello300 300 [5, 500] false = [5, 300] ∧
    ([300] : List Nat) ≠ [5, 300] := by
  refine ⟨by decide, by decide, by decide⟩

/-- C3 amended: every offset of a split plan is strictly below
`bytes_read`, or is `bytes_read` itself, or is an SNI-derived offset;
in particular every configured explicit offset that is `≥ bytes_read`
and distinct from those is excluded, and every explicit offset that
makes it into the plan on its own account is strictly below
`bytes_read` (the filter at lines 171-175 of `src/main.rs`).  The
`[5, 500]`-with-300-byte-read example produces `[5, 300]` only when the
read parses as a ClientHello with an SNI host name; otherwise it
produces `[300]`. -/
theorem plan_elements_bound (buf : List Nat) (rb : Nat) (ps : List Nat) (sh : Bool)
    (x : Nat) (hx : x ∈ splitPlan buf rb ps sh) :
    x < rb ∨ x = rb ∨ x ∈ (hostEntries buf).map sniSplitOffset := by
  rcases (mem_splitPlan x buf rb ps sh).mp hx with hraw | hrb
  · unfold rawPositions at hraw
    rcases List.mem_flatMap.mp hraw with ⟨en, hen, hmem⟩
    rcases List.mem_append.mp hmem with hf | hsni
    · left
      have h2 := (List.mem_filter.mp hf).2
      simpa using h2
    · right; right
      cases sh with
      | false => simp at hsni
      | true =>
        simp only [if_true, List.mem_singleton] at hsni
        exact List.mem_map.mpr ⟨en, hen, hsni.symm⟩
  · right; left; exact hrb

/-- C3 amended witness: offset 5 of the plan for the 300-byte
ClientHello read with explicit positions `[5, 500]` is strictly below
the 300 bytes read. -/
theorem plan_elements_bound_witness :
    5 ∈ splitPlan clientHello300 300 [5, 500] false ∧
    (5 < 300 ∨ 5 = 300 ∨ 5 ∈ (hostEntries clientHello300).map sniSplitOffset) :=
  ⟨by decide, plan_elements_bound clientHello300 300 [5, 500] false 5 (by decide)⟩

/-! ### C4 -/

/-- C4 failing input (the claim is right, the code is wrong).  The
planner parses the whole buffer (`parse_tls_plaintext(&buf)` at line
162 of `src/main.rs`), not only the `read_bytes` fresh bytes, and the
SNI-relative push at lines 177-185 is not bounded by `read_bytes`.
After a full ClientHello read, a 5-byte read of the same record header
leaves the buffer byte-identical to `clientHello300` (first conjunct);
with SNI splitting on, the resulting plan is `[5, 81]`: its final
element 81 exceeds the 5 bytes read, violating the invariant that every
offset is `≤ bytes_read` and the final offset equals `bytes_read`, and
making the writer send 76 stale bytes. -/
theorem stale_tail_plan_invariant_violation :
    staleBuf = clientHello300 ∧
    splitPlan clientHello300 5 [] true = [5, 81] ∧
    (splitPlan clientHello300 5 [] true).getLast? = some 81 ∧
    ¬(81 ≤ 5) := by
  refine ⟨by decide, by decide, by decide, by decide⟩

/-! ### C5 -/

/-- C5 failing input (the claim is right, the code is wrong).  On the
stale-tail plan `[5, 81]` for a 5-byte read, the writer emits segments
`[0, 5)` and `[5, 81)`, so the bytes written are the first 81 bytes of
the buffer, not the 5 bytes actually read: the round-trip property
fails, with 76 stale bytes injected into the stream. -/
theorem stale_tail_roundtrip_violation :
    writtenBytes clientHello300 (splitPlan clientHello300 5 [] true) =
      clientHello300.take 81 ∧
    clientHello300.take 81 ≠ clientHello300.take 5 := by
  refine ⟨by decide, by decide⟩

/-! ### C6 -/

/-- C6: with SNI-relative splitting enabled, for every host-name entry
the planner finds, the plan contains the entry's start offset plus one
when the host name is at least 2 bytes long, and the start offset
itself otherwise (`sniSplitOffset`, lines 177-185 of `src/main.rs`);
sorting and duplicate removal preserve membership. -/
theorem sni_offset_in_plan (buf : List Nat) (rb : Nat) (ps : List Nat) (en : SniEntry)
    (hen : en ∈ hostEntries buf) :
    sniSplitOffset en ∈ splitPlan buf rb ps true := by
  rw [mem_splitPlan]
  left
  unfold rawPositions
  refine List.mem_flatMap.mpr ⟨en, hen, List.mem_append_right _ ?_⟩
  simp

/-- C6 witness: `clientHello300` has its host-name entry (length 10,
at least 2) starting at offset 80, and the plan of its 300-byte read
with SNI splitting contains 81. -/
theorem sni_offset_in_plan_witness :
    (⟨0, 80, 10⟩ : SniEntry) ∈ hostEntries clientHello300 ∧
    sniSplitOffset ⟨0, 80, 10⟩ ∈ splitPlan clientHello300 300 [] true :=
  ⟨by decide, sni_offset_in_plan clientHello300 300 [] ⟨0, 80, 10⟩ (by decide)⟩

/-! ### C7 -/

/-- C7: given a split plan as the data model defines it (strictly
ascending, final element equal to `bytes_read`), the writer performs a
flush-wait after the segment ending at the plan's i-th offset exactly
when the plan has more than one offset and that segment is not the
final one; in particular a single-offset plan never triggers a
flush-wait, so the socket's pending-unsent-bytes state is never
queried on the unsplit hot path.  (The code's condition at line 203 of
`src/main.rs` compares the offset with `read_bytes`; under the plan
invariant that is equivalent to not being the final segment.) -/
theorem flush_wait_iff_not_final (plan : List Nat) (rb i : Nat)
    (hs : List.Pairwise (· < ·) plan) (hl : plan.getLast? = some rb)
    (hi : i < plan.length) :
    (flushFlags rb plan).get? i =
      some (decide (1 < plan.length) && decide (i + 1 ≠ plan.length)) := by
  unfold flushFlags
  rw [List.get?_map, List.get?_eq_get hi, Option.map_some']
  congr 1
  have hlast : plan.get? (plan.length - 1) = some rb := by
    rw [← List.getLast?_eq_get?]; exact hl
  unfold flushAfter
  by_cases hfin : i + 1 = plan.length
  · have hget : plan.get ⟨i, hi⟩ = rb := by
      have h1 : plan.get? i = some rb := by
        have h2 : i = plan.length - 1 := by omega
        rw [h2]; exact hlast
      rw [List.get?_eq_get hi] at h1
      exact Option.some.inj h1
    have hget2 : plan[i] = rb := hget
    simp [hget2, hfin]
  · have hj : plan.length - 1 < plan.length := by omega
    have hrb : plan.get ⟨plan.length - 1, hj⟩ = rb := by
      have h1 := hlast
      rw [List.get?_eq_get hj] at h1
      exact Option.some.inj h1
    have hlt : plan.get ⟨i, hi⟩ < plan.get ⟨plan.length - 1, hj⟩ := by
      apply List.pairwise_iff_get.mp hs
      simp only [Fin.mk_lt_mk]
      omega
    rw [hrb] at hlt
    have hne : plan[i] ≠ rb := Nat.ne_of_lt hlt
    simp [hne, hfin]

/-- C7 witness: on the two-offset plan `[5, 10]` for a 10-byte read,
the first segment is followed by a flush-wait. -/
theorem flush_wait_iff_not_final_witness :
    List.Pairwise (· < ·) [5, 10] ∧
    (flushFlags 10 [5, 10]).get? 0 = some true :=
  ⟨by decide, flush_wait_iff_not_final [5, 10] 10 0 (by decide) (by decide) (by decide)⟩

/-! ### C8 -/

/-- C8 failing input (the claim is right, the code is wrong).  Two
buffers agreeing on the 5 bytes actually read but differing in the
stale tail get different plans (`[5, 81]` against `[5]`): the plan is
not a function of the first `bytes_read` bytes and the configuration,
because line 162 of `src/main.rs` parses the entire buffer. -/
theorem stale_tail_plan_differs :
    clientHello300.take 5 = zeroTailBuf.take 5 ∧
    splitPlan clientHello300 5 [] true ≠ splitPlan zeroTailBuf 5 [] true := by
  refine ⟨by decide, by decide⟩

/-! ### C9 -/

/-- The `HcEnv` in which everything succeeds except the initiation of
the outbound connection. -/
def hcConnectFail : HcEnv := { hcAllOk with connectOk := false }

/-- C9 counterexample.  When initiating the outbound connection fails
and every other operation succeeds, `handle_client` still reaches the
end, spawns the relay tasks and returns `Ok`: the failure is not
surfaced and is not fatal, because line 241 of `src/main.rs` discards
the `connect` result with `.ok()`. -/
theorem connect_failure_ignored_cex :
    handle_client hcConnectFail = Except.ok true ∧
    handle_client hcConnectFail ≠ Except.error () := by
  refine ⟨rfl, ?_⟩
  intro h
  rw [show handle_client hcConnectFail = Except.ok true from rfl] at h
  exact Except.noConfusion h

/-- C9 amended: the outcome of `handle_client` is independent of the
result of initiating the outbound connection; the result is discarded,
the relay is set up as if initiation had succeeded, and any
outbound-connection failure can only surface later as a read/write
error on the relay. -/
theorem connect_result_discarded (env : HcEnv) :
    handle_client env = handle_client { env with connectOk := true } := by
  cases env
  rfl

/-! ### C10 -/

/-- C10: in the client-to-server direction, a read error on the client
socket is handled exactly as a zero-length clean EOF: whatever came
before and whatever would come after, the task's events and result are
identical (the loop breaks without propagating the error, the
destination's write side is shut down, and the task returns `Ok` when
the shutdown call does). -/
theorem read_error_equals_eof (pre : List (ReadRes × Bool)) :
    ∀ (rest1 rest2 : List (ReadRes × Bool)) (w1 w2 sdOk : Bool),
      c2s sdOk (pre ++ (ReadRes.err, w1) :: rest1) =
        c2s sdOk (pre ++ (ReadRes.data [], w2) :: rest2) := by
  induction pre with
  | nil => intro rest1 rest2 w1 w2 sdOk; rfl
  | cons hd tl ih =>
    intro rest1 rest2 w1 w2 sdOk
    obtain ⟨r, wOk⟩ := hd
    cases r with
    | err => rfl
    | data bs =>
      cases bs with
      | nil => rfl
      | cons b bt =>
        simp only [List.cons_append, c2s, List.append_eq]
        rw [ih rest1 rest2 w1 w2 sdOk]
